import Mathlib

/-!
Verification of the Brandenburg ALKIS tile pipeline
(`scripts/make-tiles-bb.py`, with `scripts/convert-bb.py` as a variant).

The Python scripts are shallowly embedded: dictionaries become structures
with `Option` fields (`none` models an absent key), Python truthiness of
optional strings is modelled explicitly, the network / subprocess
boundaries become inductive outcome types, and the `while` grid loops
become well-founded recursion over rationals.
-/

/-- Opaque geometry payload; the pipeline never inspects geometries,
it only copies them, so a wrapped number suffices. -/
structure Geometry where
  val : Nat
  deriving DecidableEq, Repr

/-- The two properties of a raw WFS feature the scripts ever read:
`nutzart` (land-use label) and `gml_id` (fallback identifier).
`none` models an absent key. -/
structure RawProps where
  nutzart : Option String
  gml_id : Option String
  deriving DecidableEq, Repr

/-- A raw feature from the WFS response: top-level `id`, `properties`
object and `geometry`, each possibly absent. -/
structure RawFeature where
  id : Option String
  properties : Option RawProps
  geometry : Option Geometry
  deriving DecidableEq, Repr

/-- The transformed feature written by `transform_features`:
`{"type": "Feature", "properties": {"bezeich": b}, "geometry": g}`.
Its properties object holds the single attribute `bezeich`. -/
structure TargetFeature where
  ftype : String
  bezeich : String
  geometry : Option Geometry
  deriving DecidableEq, Repr

/-- Python truthiness of a value that is either `None` or a string:
falsy iff `None` or the empty string. -/
def pyTruthy : Option String → Bool
  | none => false
  | some s => s ≠ ""

/-- Python `a or b` over `None`-or-string values. -/
def pyOr (a b : Option String) : Option String :=
  if pyTruthy a then a else b

/-- The hardcoded `mapping` dictionary of `map_nutzart_to_bezeich`
(identical to `NUTZART_TO_BEZEICH` in `convert-bb.py`), as the ordered
association list of its entries. -/
def nutzartMapping : List (String × String) :=
  [("Wohnbaufläche", "AX_Wohnbauflaeche"),
   ("Industrie- und Gewerbefläche", "AX_IndustrieUndGewerbeflaeche"),
   ("Fläche gemischter Nutzung", "AX_FlaecheGemischterNutzung"),
   ("Fläche besonderer funktionaler Prägung", "AX_FlaecheBesondererFunktionalerPraegung"),
   ("Sport-, Freizeit- und Erholungsfläche", "AX_SportFreizeitUndErholungsflaeche"),
   ("Straßenverkehr", "AX_Strassenverkehr"),
   ("Weg", "AX_Weg"),
   ("Platz", "AX_Platz"),
   ("Bahnverkehr", "AX_Bahnverkehr"),
   ("Flugverkehr", "AX_Flugverkehr"),
   ("Schiffsverkehr", "AX_Schiffsverkehr"),
   ("Wald", "AX_Wald"),
   ("Gehölz", "AX_Gehoelz"),
   ("Heide", "AX_Heide"),
   ("Moor", "AX_Moor"),
   ("Sumpf", "AX_Sumpf"),
   ("Landwirtschaft", "AX_Landwirtschaft"),
   ("Unland/Vegetationslose Fläche", "AX_UnlandVegetationsloseFlaeche"),
   ("Friedhof", "AX_Friedhof"),
   ("Fließgewässer", "AX_Fliessgewaesser"),
   ("Stehendes Gewässer", "AX_StehendesGewaesser"),
   ("Hafenbecken", "AX_Hafenbecken"),
   ("Tagebau, Grube, Steinbruch", "AX_TagebauGrubeSteinbruch"),
   ("Halde", "AX_Halde")]

/-- `map_nutzart_to_bezeich(nutzart)`: `mapping.get(nutzart)`, i.e. the
value of the first entry whose key equals `nutzart`, else `None`. -/
def map_nutzart_to_bezeich (nutzart : String) : Option String :=
  (nutzartMapping.find? (fun p => p.1 = nutzart)).map Prod.snd

/-- The `nutzart` label the transform reads off a raw feature:
properties default to the empty dict, the label defaults to "". -/
def nutzartLabel (f : RawFeature) : String :=
  ((f.properties.getD { nutzart := none, gml_id := none }).nutzart).getD ""

/-- Body of the `transform_features` loop for one feature: look the label
up, and if the result is truthy emit the minimal feature. -/
def transformOne (f : RawFeature) : Option TargetFeature :=
  let bezeich := map_nutzart_to_bezeich (nutzartLabel f)
  if pyTruthy bezeich then
    some { ftype := "Feature", bezeich := bezeich.getD "", geometry := f.geometry }
  else
    none

/-- `transform_features(features)`: the list of emitted features, in
input order. -/
def transform_features (features : List RawFeature) : List TargetFeature :=
  features.filterMap transformOne

/-- The identifier expression of the collector loop:
the top-level `id`, Python-`or`-ed with the `gml_id` property
(properties default to the empty dict, so a missing object yields `None`). -/
def featId (f : RawFeature) : Option String :=
  pyOr f.id ((f.properties.getD { nutzart := none, gml_id := none }).gml_id)

/-- The identifier under which a feature is deduplicated, when that
identifier is truthy: `some s` iff `featId` is a non-empty string `s`. -/
def truthyId (f : RawFeature) : Option String :=
  match featId f with
  | some s => if s = "" then none else some s
  | none => none

/-- The accumulation loop of `download_all_features` over the incoming
feature stream, carrying the `seen_ids` set (as a list): a feature is
appended iff its identifier is truthy and unseen, in which case the
identifier is marked seen. -/
def collectFeatures : List RawFeature → List String → List RawFeature
  | [], _ => []
  | f :: fs, seen =>
    match featId f with
    | some s =>
        if s ≠ "" ∧ s ∉ seen then f :: collectFeatures fs (s :: seen)
        else collectFeatures fs seen
    | none => collectFeatures fs seen

/-- `download_all_features`, deduplication part: the per-cell fetch
results arrive in grid order; the collector folds over their
concatenation with an initially empty `seen_ids`. -/
def download_all_features (cells : List (List RawFeature)) : List RawFeature :=
  collectFeatures cells.flatten []

/-- Reference first-occurrence filter (the spec's words): keep each
feature whose truthy identifier has not occurred earlier, dropping every
later feature with the same identifier; features without a truthy
identifier are dropped. -/
def firstOccSpec : List RawFeature → List RawFeature
  | [] => []
  | f :: fs =>
    match truthyId f with
    | none => firstOccSpec fs
    | some i => f :: firstOccSpec (fs.filter (fun g => truthyId g ≠ some i))
termination_by l => l.length
decreasing_by
  all_goals simp only [List.length_cons]
  · omega
  · exact Nat.lt_succ_of_le (List.length_filter_le _ _)

/-- Whether a feature's truthy identifier avoids a given seen set;
features without a truthy identifier are (vacuously) kept. -/
def keepB (seen : List String) (g : RawFeature) : Bool :=
  match truthyId g with
  | some i => !(seen.contains i)
  | none => true

/-- One grid axis of the `while` loops in `download_all_features`:
the positions `x, x+step, ...` strictly below `bmax`. -/
def gridXs (x bmax step : ℚ) (hstep : 0 < step) : List ℚ :=
  if h : x < bmax then x :: gridXs (x + step) bmax step hstep
  else []
termination_by (⌈(bmax - x) / step⌉).toNat
decreasing_by
  have hs : step ≠ 0 := ne_of_gt hstep
  have h1 : (bmax - (x + step)) / step = (bmax - x) / step - 1 := by
    field_simp
    ring
  rw [h1, Int.ceil_sub_one]
  have h2 : 0 < ⌈(bmax - x) / step⌉ := Int.ceil_pos.mpr (div_pos (by linarith) hstep)
  omega

/-- A sub-rectangle requested from the WFS. -/
structure GridCell where
  minx : ℚ
  miny : ℚ
  maxx : ℚ
  maxy : ℚ
  deriving DecidableEq, Repr

/-- The cell enumeration of `download_all_features`: outer loop over x,
inner loop over y, each cell's max edges clipped to the outer box. -/
def gridCells (bminx bminy bmaxx bmaxy step : ℚ) (h : 0 < step) : List GridCell :=
  (gridXs bminx bmaxx step h).flatMap (fun x =>
    (gridXs bminy bmaxy step h).map (fun y =>
      { minx := x, miny := y, maxx := min (x + step) bmaxx, maxy := min (y + step) bmaxy }))

/-- Outcome of the HTTP fetch in `get_features_for_bbox`:
`requestError` models a raised `requests.RequestException` (network
failure, timeout, or an HTTP error status raised by
`raise_for_status`), `decodeError` a `json.JSONDecodeError` on a
malformed body, and `ok fs` a parsed JSON object whose "features" key
holds `fs` (with `none` when the key is absent). -/
inductive FetchOutcome where
  | requestError
  | decodeError
  | ok (features : Option (List RawFeature))
  deriving DecidableEq, Repr

/-- `get_features_for_bbox`: both exception branches return the empty
list; a parsed body yields `data.get("features", [])`. -/
def get_features_for_bbox (outcome : FetchOutcome) : List RawFeature :=
  match outcome with
  | FetchOutcome.requestError => []
  | FetchOutcome.decodeError => []
  | FetchOutcome.ok fs => fs.getD []

/-- JSON documents, for the persisted GeoJSON file. -/
inductive Json where
  | null
  | str (s : String)
  | num (n : Int)
  | arr (elems : List Json)
  | obj (fields : List (String × Json))
  deriving Repr

/-- Geometry serialization (opaque payload as a number, absent as null). -/
def encodeGeometry : Option Geometry → Json
  | none => Json.null
  | some g => Json.num g.val

/-- The JSON object `transform_features` builds for one feature. -/
def encodeFeature (f : TargetFeature) : Json :=
  Json.obj [("type", Json.str f.ftype),
            ("properties", Json.obj [("bezeich", Json.str f.bezeich)]),
            ("geometry", encodeGeometry f.geometry)]

/-- `save_geojson(features, path)`: the document written to the output
file (the `json.dump` / `json.load` pair is the standard library and is
taken as an exact round trip of this value). -/
def save_geojson (features : List TargetFeature) : Json :=
  Json.obj [("type", Json.str "FeatureCollection"),
            ("features", Json.arr (features.map encodeFeature))]

/-- Python `dict.get` on a JSON object. -/
def jsonLookup (fields : List (String × Json)) (key : String) : Option Json :=
  (fields.find? (fun p => p.1 = key)).map Prod.snd

/-- Reading a geometry back from the persisted document. -/
def decodeGeometry : Json → Option (Option Geometry)
  | Json.null => some none
  | Json.num n => some (some { val := n.toNat })
  | _ => none

/-- Reading one persisted feature back. -/
def decodeFeature : Json → Option TargetFeature
  | Json.obj fields =>
    match jsonLookup fields "type", jsonLookup fields "properties",
          jsonLookup fields "geometry" with
    | some (Json.str t), some (Json.obj props), some gj =>
      match jsonLookup props "bezeich", decodeGeometry gj with
      | some (Json.str b), some g =>
          some { ftype := t, bezeich := b, geometry := g }
      | _, _ => none
    | _, _, _ => none
  | _ => none

/-- Reading a list of persisted features back, failing if any fails. -/
def decodeFeatures : List Json → Option (List TargetFeature)
  | [] => some []
  | j :: js =>
    match decodeFeature j, decodeFeatures js with
    | some f, some fs => some (f :: fs)
    | _, _ => none

/-- Re-reading the persisted file: `json.load(f)["features"]`. -/
def readFeatureCollection : Json → Option (List TargetFeature)
  | Json.obj fields =>
    match jsonLookup fields "features" with
    | some (Json.arr elems) => decodeFeatures elems
    | _ => none
  | _ => none

/-- Outcome of the external `tippecanoe` invocation: the binary may be
missing from the environment (`FileNotFoundError`) or exit with a
status code (nonzero raises `CalledProcessError` under `check=True`). -/
inductive ToolOutcome where
  | missing
  | exitedWith (code : Nat)
  deriving DecidableEq, Repr

/-- Filesystem / process actions `generate_tiles` performs, in order. -/
inductive TileAction where
  | removeTree (dir : String)
  | runCommand (cmd : List String)
  deriving DecidableEq, Repr

/-- The trace of a `generate_tiles` call: the actions taken and the
`sys.exit` code, if any. -/
structure TileResult where
  actions : List TileAction
  exitStatus : Option Nat
  deriving DecidableEq, Repr

/-- The `tippecanoe` command line assembled by `generate_tiles`
in `make-tiles-bb.py`. -/
def tippecanoeCmd (tiles_dir geojson_path : String) : List String :=
  ["tippecanoe", "--output-to-directory", tiles_dir,
   "--use-attribute-for-id=id", "--no-tile-compression", "--force",
   "-B", "10", "--minimum-zoom=10", "--maximum-zoom=13",
   "--layer=alkis", geojson_path]

/-- `generate_tiles(geojson_path, tiles_dir)`: remove fully the tiles
directory when it exists, then run `tippecanoe`; a missing binary or a
nonzero exit becomes `sys.exit(1)`. -/
def generate_tiles (geojson_path tiles_dir : String) (dirExists : Bool)
    (tool : ToolOutcome) : TileResult :=
  let pre := if dirExists then [TileAction.removeTree tiles_dir] else []
  let cmd := tippecanoeCmd tiles_dir geojson_path
  match tool with
  | ToolOutcome.missing =>
      { actions := pre ++ [TileAction.runCommand cmd], exitStatus := some 1 }
  | ToolOutcome.exitedWith 0 =>
      { actions := pre ++ [TileAction.runCommand cmd], exitStatus := none }
  | ToolOutcome.exitedWith (_ + 1) =>
      { actions := pre ++ [TileAction.runCommand cmd], exitStatus := some 1 }

/-- The pipeline stages of `main`, in source order. -/
inductive Stage where
  | download
  | transform
  | persist
  | tiles
  deriving DecidableEq, Repr

/-- The trace of one `main` run: which stages were entered, the
`sys.exit` code (if any), and the persisted features. -/
structure RunResult where
  stages : List Stage
  exitStatus : Option Nat
  persisted : List TargetFeature
  deriving DecidableEq, Repr

/-- `main`, from the point where the download stage has produced
`features`: an empty list exits with code 1 at once; otherwise the
transform, persistence and tile stages run in order. -/
def main_run (features : List RawFeature) (dirExists : Bool)
    (tool : ToolOutcome) : RunResult :=
  if features.isEmpty then
    { stages := [Stage.download], exitStatus := some 1, persisted := [] }
  else
    let transformed := transform_features features
    let tr := generate_tiles "alkis_bb.geojson" "tiles" dirExists tool
    { stages := [Stage.download, Stage.transform, Stage.persist, Stage.tiles],
      exitStatus := tr.exitStatus,
      persisted := transformed }

theorem map_nutzart_mem {L b : String} (h : map_nutzart_to_bezeich L = some b) :
    (L, b) ∈ nutzartMapping := by
  unfold map_nutzart_to_bezeich at h
  obtain ⟨pr, hf, hsnd⟩ := Option.map_eq_some'.mp h
  have hmem := List.mem_of_find?_eq_some hf
  have hpred := List.find?_some hf
  simp only [decide_eq_true_eq] at hpred
  have hpr : pr = (L, b) := by
    cases pr
    simp_all
  exact hpr ▸ hmem

theorem map_nutzart_ne_empty {L b : String}
    (h : map_nutzart_to_bezeich L = some b) : b ≠ "" := by
  have hall : ∀ p ∈ nutzartMapping, p.2 ≠ "" := by decide
  exact hall _ (map_nutzart_mem h)

theorem map_nutzart_snd_mem {L b : String}
    (h : map_nutzart_to_bezeich L = some b) : b ∈ nutzartMapping.map Prod.snd := by
  exact List.mem_map.mpr ⟨(L, b), map_nutzart_mem h, rfl⟩

theorem transformOne_eq_some {f : RawFeature} {b : String}
    (h : map_nutzart_to_bezeich (nutzartLabel f) = some b) :
    transformOne f = some { ftype := "Feature", bezeich := b, geometry := f.geometry } := by
  have hb : b ≠ "" := map_nutzart_ne_empty h
  simp [transformOne, h, pyTruthy, hb]

theorem transformOne_eq_none {f : RawFeature}
    (h : map_nutzart_to_bezeich (nutzartLabel f) = none) :
    transformOne f = none := by
  simp [transformOne, h, pyTruthy]

theorem transformOne_some_bezeich {f : RawFeature} {t : TargetFeature}
    (h : transformOne f = some t) :
    map_nutzart_to_bezeich (nutzartLabel f) = some t.bezeich := by
  cases hm : map_nutzart_to_bezeich (nutzartLabel f) with
  | none => rw [transformOne_eq_none hm] at h; exact absurd h (by simp)
  | some b =>
    rw [transformOne_eq_some hm] at h
    have : t = { ftype := "Feature", bezeich := b, geometry := f.geometry } := by
      exact (Option.some.injEq _ _ ▸ h).symm
    rw [this]

/-- C1: a raw feature whose nutzart label is a key of the vocabulary
table is transformed into exactly one target feature, holding only the
mapped bezeich and the unchanged geometry; a feature whose label is not
a key (the empty string included) produces nothing; and the stage acts
featurewise on the input list. -/
theorem C1_transform_vocabulary (f : RawFeature) :
    (∀ b, map_nutzart_to_bezeich (nutzartLabel f) = some b →
        transform_features [f] =
          [{ ftype := "Feature", bezeich := b, geometry := f.geometry }]) ∧
    (map_nutzart_to_bezeich (nutzartLabel f) = none →
        transform_features [f] = []) ∧
    (map_nutzart_to_bezeich (nutzartLabel f) = none ↔
        nutzartLabel f ∉ nutzartMapping.map Prod.fst) ∧
    (∀ fs, transform_features (f :: fs) = transform_features [f] ++ transform_features fs) := by
  refine ⟨fun b hb => ?_, fun hn => ?_, ?_, fun fs => ?_⟩
  · simp [transform_features, transformOne_eq_some hb]
  · simp [transform_features, transformOne_eq_none hn]
  · rw [map_nutzart_to_bezeich, Option.map_eq_none', List.find?_eq_none]
    simp only [decide_eq_true_eq, Prod.forall, List.mem_map, not_exists, Prod.exists]
    constructor
    · rintro h a x ⟨hmem, heq⟩
      exact h a x hmem heq
    · intro h a b hab heq
      exact h a b ⟨hab, heq⟩
  · cases hf : transformOne f <;> simp [transform_features, List.filterMap_cons, hf]

/-- Witness for C1 at concrete features: a "Wald" feature is emitted
with bezeich "AX_Wald" and its geometry; an unmapped label is dropped. -/
theorem C1_transform_vocabulary_witness :
    transform_features
        [{ id := none,
           properties := some { nutzart := some "Wald", gml_id := none },
           geometry := some { val := 7 } }] =
      [{ ftype := "Feature", bezeich := "AX_Wald", geometry := some { val := 7 } }] ∧
    transform_features
        [{ id := none,
           properties := some { nutzart := some "Unknown Label", gml_id := none },
           geometry := some { val := 7 } }] = [] := by
  constructor
  · exact (C1_transform_vocabulary _).1 "AX_Wald" (by decide)
  · exact (C1_transform_vocabulary _).2.1 (by decide)

/-- C10: the transform is total over arbitrary raw-feature shapes.
Missing properties, or properties without a nutzart key, yield the
empty-string label and the feature is dropped; a mapped feature without
a geometry key is emitted with a null geometry. -/
theorem C10_transform_total :
    (∀ f : RawFeature, f.properties = none →
        nutzartLabel f = "" ∧ transform_features [f] = []) ∧
    (∀ (f : RawFeature) (p : RawProps), f.properties = some p → p.nutzart = none →
        nutzartLabel f = "" ∧ transform_features [f] = []) ∧
    (∀ (f : RawFeature) (b : String), f.geometry = none →
        map_nutzart_to_bezeich (nutzartLabel f) = some b →
        transform_features [f] =
          [{ ftype := "Feature", bezeich := b, geometry := none }]) := by
  have hempty : map_nutzart_to_bezeich "" = none := by decide
  refine ⟨fun f hp => ?_, fun f p hp hn => ?_, fun f b hg hb => ?_⟩
  · have hl : nutzartLabel f = "" := by simp [nutzartLabel, hp]
    refine ⟨hl, ?_⟩
    have hnone : map_nutzart_to_bezeich (nutzartLabel f) = none := by
      rw [hl]; exact hempty
    simp [transform_features, transformOne_eq_none hnone]
  · have hl : nutzartLabel f = "" := by simp [nutzartLabel, hp, hn]
    refine ⟨hl, ?_⟩
    have : map_nutzart_to_bezeich (nutzartLabel f) = none := by rw [hl]; exact hempty
    simp [transform_features, transformOne_eq_none this]
  · have := transformOne_eq_some hb
    rw [hg] at this
    simp [transform_features, this]

/-- Witness for C10 at concrete features: no properties object, a
properties object without nutzart, and a mapped feature without a
geometry key. -/
theorem C10_transform_total_witness :
    transform_features [{ id := none, properties := none, geometry := none }] = [] ∧
    transform_features
        [{ id := some "x",
           properties := some { nutzart := none, gml_id := some "g" },
           geometry := some { val := 3 } }] = [] ∧
    transform_features
        [{ id := none,
           properties := some { nutzart := some "Moor", gml_id := none },
           geometry := none }] =
      [{ ftype := "Feature", bezeich := "AX_Moor", geometry := none }] := by
  refine ⟨(C10_transform_total.1 _ rfl).2, ?_, ?_⟩
  · exact (C10_transform_total.2.1 _ { nutzart := none, gml_id := some "g" } rfl rfl).2
  · exact C10_transform_total.2.2 _ "AX_Moor" rfl (by decide)

theorem collectFeatures_eq_firstOcc :
    ∀ (fs : List RawFeature) (seen : List String),
      collectFeatures fs seen = firstOccSpec (fs.filter (keepB seen)) := by
  intro fs
  induction fs with
  | nil => intro seen; simp [collectFeatures, firstOccSpec]
  | cons f fs ih =>
    intro seen
    cases hfid : featId f with
    | none =>
      have ht : truthyId f = none := by simp [truthyId, hfid]
      have hk : keepB seen f = true := by simp [keepB, ht]
      simp only [collectFeatures, hfid, List.filter_cons, hk, if_true]
      rw [firstOccSpec]
      simp only [ht]
      exact ih seen
    | some s =>
      by_cases hs : s = ""
      · subst hs
        have ht : truthyId f = none := by simp [truthyId, hfid]
        have hk : keepB seen f = true := by simp [keepB, ht]
        simp only [collectFeatures, hfid]
        rw [if_neg (by simp)]
        simp only [List.filter_cons, hk, if_true]
        rw [firstOccSpec]
        simp only [ht]
        exact ih seen
      · have ht : truthyId f = some s := by simp [truthyId, hfid, hs]
        by_cases hseen : s ∈ seen
        · have hk : keepB seen f = false := by simp [keepB, ht, hseen]
          simp only [collectFeatures, hfid]
          rw [if_neg (by simp [hseen])]
          simp only [List.filter_cons, hk]
          simp only [Bool.false_eq_true, if_false]
          exact ih seen
        · have hk : keepB seen f = true := by simp [keepB, ht, hseen]
          simp only [collectFeatures, hfid]
          rw [if_pos ⟨hs, hseen⟩]
          simp only [List.filter_cons, hk, if_true]
          rw [firstOccSpec]
          simp only [ht]
          congr 1
          rw [ih (s :: seen), List.filter_filter]
          congr 1
          apply List.filter_congr
          intro g _
          cases htg : truthyId g with
          | none => simp [keepB, htg]
          | some j =>
            by_cases hj : j = s
            · simp [keepB, htg, hj]
            · by_cases hjs : j ∈ seen <;>
                simp [keepB, htg, hj, hjs, List.contains_cons]

theorem mem_of_mem_firstOccSpec (n : ℕ) :
    ∀ l : List RawFeature, l.length ≤ n → ∀ g ∈ firstOccSpec l, g ∈ l := by
  induction n with
  | zero =>
    intro l hl g hg
    cases l with
    | nil => simpa [firstOccSpec] using hg
    | cons f fs => simp at hl
  | succ n ih =>
    intro l hl g hg
    cases l with
    | nil => simpa [firstOccSpec] using hg
    | cons f fs =>
      rw [firstOccSpec] at hg
      cases ht : truthyId f with
      | none =>
        simp only [ht] at hg
        exact List.mem_cons_of_mem f (ih fs (by simpa using hl) g hg)
      | some i =>
        simp only [ht] at hg
        rcases List.mem_cons.mp hg with h | h
        · exact h ▸ List.mem_cons_self f fs
        · have hmem := ih (fs.filter (fun g => truthyId g ≠ some i))
            (le_trans (List.length_filter_le _ _) (by simpa using hl)) g h
          exact List.mem_cons_of_mem f (List.mem_of_mem_filter hmem)

theorem firstOccSpec_ids_nodup (n : ℕ) :
    ∀ l : List RawFeature, l.length ≤ n →
      ((firstOccSpec l).filterMap truthyId).Nodup := by
  induction n with
  | zero =>
    intro l hl
    cases l with
    | nil => simp [firstOccSpec]
    | cons f fs => simp at hl
  | succ n ih =>
    intro l hl
    cases l with
    | nil => simp [firstOccSpec]
    | cons f fs =>
      rw [firstOccSpec]
      cases ht : truthyId f with
      | none =>
        simp only [ht]
        exact ih fs (by simpa using hl)
      | some i =>
        simp only [ht, List.filterMap_cons]
        refine List.nodup_cons.mpr ⟨?_, ih _ (le_trans (List.length_filter_le _ _) (by simpa using hl))⟩
        intro hmem
        obtain ⟨g, hg, hgi⟩ := List.mem_filterMap.mp hmem
        have hgfilter := mem_of_mem_firstOccSpec _ _ le_rfl g hg
        have hpred := List.of_mem_filter hgfilter
        simp only [decide_eq_true_eq] at hpred
        exact hpred hgi

theorem download_eq_firstOcc (cells : List (List RawFeature)) :
    download_all_features cells = firstOccSpec cells.flatten := by
  rw [download_all_features, collectFeatures_eq_firstOcc]
  congr 1
  refine List.filter_eq_self.mpr fun a _ => ?_
  cases ht : truthyId a <;> simp [keepB, ht]

theorem download_ids_nodup (cells : List (List RawFeature)) :
    ((download_all_features cells).filterMap truthyId).Nodup := by
  rw [download_eq_firstOcc]
  exact firstOccSpec_ids_nodup _ _ le_rfl

/-- C2: the deduplicating collector keeps exactly the first occurrence
of each truthy identifier, in first-seen order (it equals the reference
first-occurrence filter), and the identifiers of its output are
pairwise distinct. -/
theorem C2_dedup_first_seen (cells : List (List RawFeature)) :
    download_all_features cells = firstOccSpec cells.flatten ∧
    ((download_all_features cells).filterMap truthyId).Nodup :=
  ⟨download_eq_firstOcc cells, download_ids_nodup cells⟩

/-- Witness for C2 on a concrete stream: two distinct identifiers and a
duplicate; the duplicate is dropped, the first occurrences are kept in
first-seen order. -/
theorem C2_dedup_first_seen_witness :
    download_all_features
        [[{ id := some "a", properties := none, geometry := none },
          { id := none,
            properties := some { nutzart := none, gml_id := some "b" },
            geometry := none },
          { id := some "a", properties := none, geometry := some { val := 1 } }]] =
      [{ id := some "a", properties := none, geometry := none },
       { id := none,
         properties := some { nutzart := none, gml_id := some "b" },
         geometry := none }] ∧
    ((download_all_features
        [[{ id := some "a", properties := none, geometry := none },
          { id := none,
            properties := some { nutzart := none, gml_id := some "b" },
            geometry := none },
          { id := some "a", properties := none, geometry := some { val := 1 } }]]).filterMap
        truthyId).Nodup :=
  ⟨by decide, (C2_dedup_first_seen _).2⟩

/-- C4: for every run, the persisted collection (transform of the
deduplicated download output) only carries bezeich values from the
vocabulary table's value set, and the deduplicated features it is built
from have pairwise distinct source identifiers. -/
theorem C4_pipeline_invariants (cells : List (List RawFeature)) :
    (∀ t ∈ transform_features (download_all_features cells),
        t.bezeich ∈ nutzartMapping.map Prod.snd) ∧
    ((download_all_features cells).filterMap truthyId).Nodup := by
  constructor
  · intro t ht
    obtain ⟨f, _, hf⟩ := List.mem_filterMap.mp ht
    exact map_nutzart_snd_mem (transformOne_some_bezeich hf)
  · exact download_ids_nodup cells

/-- Witness for C4 on one concrete run: the transformed "Wald" feature
carries a bezeich from the vocabulary's value set. -/
theorem C4_pipeline_invariants_witness :
    "AX_Wald" ∈ nutzartMapping.map Prod.snd :=
  (C4_pipeline_invariants
      [[{ id := some "w",
          properties := some { nutzart := some "Wald", gml_id := none },
          geometry := some { val := 2 } }]]).1
    { ftype := "Feature", bezeich := "AX_Wald", geometry := some { val := 2 } }
    (by decide)

/-- C9: the secondary identifier (`gml_id`) is used whenever the
primary `id` is falsy, i.e. absent or the empty string; a feature falsy
under both fields is skipped and the seen set is left unchanged. -/
theorem C9_id_fallback :
    (∀ f : RawFeature, pyTruthy f.id = false →
        featId f = (f.properties.getD { nutzart := none, gml_id := none }).gml_id) ∧
    (∀ (props : Option RawProps) (geom : Option Geometry),
        featId { id := some "", properties := props, geometry := geom } =
          featId { id := none, properties := props, geometry := geom }) ∧
    (∀ (f : RawFeature) (fs : List RawFeature) (seen : List String),
        pyTruthy (featId f) = false →
        collectFeatures (f :: fs) seen = collectFeatures fs seen) := by
  refine ⟨fun f h => ?_, fun props geom => ?_, fun f fs seen h => ?_⟩
  · simp [featId, pyOr, h]
  · simp [featId, pyOr, pyTruthy]
  · cases hfid : featId f with
    | none => simp [collectFeatures, hfid]
    | some s =>
      rw [hfid] at h
      have hs : s = "" := by simpa [pyTruthy] using h
      simp only [collectFeatures, hfid]
      rw [if_neg (by simp [hs])]

/-- Witness for C9: a feature whose `id` is the empty string and whose
`gml_id` is also empty takes the fallback, stays excluded from the
output, and records nothing as seen. -/
theorem C9_id_fallback_witness :
    featId { id := some "",
             properties := some { nutzart := none, gml_id := some "" },
             geometry := none } = some "" ∧
    collectFeatures
        [{ id := some "",
           properties := some { nutzart := none, gml_id := some "" },
           geometry := none }] [] = [] := by
  constructor
  · have h := C9_id_fallback.1
      { id := some "",
        properties := some { nutzart := none, gml_id := some "" },
        geometry := none } (by decide)
    simpa using h
  · have h := C9_id_fallback.2.2
      { id := some "",
        properties := some { nutzart := none, gml_id := some "" },
        geometry := none } [] [] (by decide)
    simpa [collectFeatures] using h

/-- C5: both exception branches of the fetch (network failure, timeout
or HTTP error status, and malformed JSON body) return the empty list
instead of raising, and a well-formed feature-collection response
yields its feature list (an object without a features key yields the
empty list). -/
theorem C5_fetch_error_handling :
    (get_features_for_bbox FetchOutcome.requestError = [] ∧
     get_features_for_bbox FetchOutcome.decodeError = []) ∧
    (∀ fs, get_features_for_bbox (FetchOutcome.ok (some fs)) = fs) ∧
    get_features_for_bbox (FetchOutcome.ok none) = [] := by
  exact ⟨⟨rfl, rfl⟩, fun fs => rfl, rfl⟩

/-- Witness for C5 at a concrete well-formed response. -/
theorem C5_fetch_error_handling_witness :
    get_features_for_bbox
        (FetchOutcome.ok
          (some [{ id := some "a", properties := none, geometry := none }])) =
      [{ id := some "a", properties := none, geometry := none }] :=
  C5_fetch_error_handling.2.1
    [{ id := some "a", properties := none, geometry := none }]

/-- C6: an empty download result makes the run exit with code 1 after
the download stage only; the transform, persistence and tile stages are
never entered. -/
theorem C6_empty_download_exits (dirExists : Bool) (tool : ToolOutcome) :
    main_run [] dirExists tool =
      { stages := [Stage.download], exitStatus := some 1, persisted := [] } ∧
    Stage.transform ∉ (main_run [] dirExists tool).stages ∧
    Stage.persist ∉ (main_run [] dirExists tool).stages ∧
    Stage.tiles ∉ (main_run [] dirExists tool).stages := by
  refine ⟨rfl, ?_, ?_, ?_⟩ <;> simp [main_run]

/-- Witness for C6 at a concrete environment. -/
theorem C6_empty_download_exits_witness :
    main_run [] true ToolOutcome.missing =
      { stages := [Stage.download], exitStatus := some 1, persisted := [] } :=
  (C6_empty_download_exits true ToolOutcome.missing).1

theorem decodeFeature_encodeFeature (f : TargetFeature) :
    decodeFeature (encodeFeature f) = some f := by
  cases f with
  | mk t b g =>
    cases g with
    | none => rfl
    | some geo =>
      cases geo with
      | mk v => simp [encodeFeature, decodeFeature, jsonLookup, encodeGeometry, decodeGeometry]

theorem decodeFeatures_map_encode (fs : List TargetFeature) :
    decodeFeatures (fs.map encodeFeature) = some fs := by
  induction fs with
  | nil => rfl
  | cons f fs ih => simp [decodeFeatures, decodeFeature_encodeFeature, ih]

/-- C7: persisting a target feature collection and re-reading the
persisted document returns the collection itself, hence a collection
with the same feature count and the same set of bezeich identifiers. -/
theorem C7_persist_roundtrip (fs : List TargetFeature) :
    readFeatureCollection (save_geojson fs) = some fs ∧
    ∃ gs, readFeatureCollection (save_geojson fs) = some gs ∧
      gs.length = fs.length ∧
      (gs.map TargetFeature.bezeich).toFinset = (fs.map TargetFeature.bezeich).toFinset := by
  have h : readFeatureCollection (save_geojson fs) = decodeFeatures (fs.map encodeFeature) := rfl
  rw [h, decodeFeatures_map_encode]
  exact ⟨rfl, fs, rfl, rfl, rfl⟩

/-- Witness for C7 at a concrete two-feature collection. -/
theorem C7_persist_roundtrip_witness :
    readFeatureCollection
        (save_geojson
          [{ ftype := "Feature", bezeich := "AX_Wald", geometry := some { val := 4 } },
           { ftype := "Feature", bezeich := "AX_Moor", geometry := none }]) =
      some
        [{ ftype := "Feature", bezeich := "AX_Wald", geometry := some { val := 4 } },
         { ftype := "Feature", bezeich := "AX_Moor", geometry := none }] :=
  (C7_persist_roundtrip
      [{ ftype := "Feature", bezeich := "AX_Wald", geometry := some { val := 4 } },
       { ftype := "Feature", bezeich := "AX_Moor", geometry := none }]).1

theorem gridXs_eq_range (bmax step : ℚ) (hstep : 0 < step) :
    ∀ (n : ℕ) (x : ℚ), (⌈(bmax - x) / step⌉).toNat = n →
      gridXs x bmax step hstep =
        (List.range n).map (fun k : ℕ => x + (k : ℚ) * step) := by
  intro n
  induction n using Nat.strong_induction_on with
  | _ n ih =>
    intro x hn
    rw [gridXs]
    by_cases h : x < bmax
    · rw [dif_pos h]
      have hc : 0 < ⌈(bmax - x) / step⌉ :=
        Int.ceil_pos.mpr (div_pos (by linarith) hstep)
      have h1 : (bmax - (x + step)) / step = (bmax - x) / step - 1 := by
        field_simp
        ring
      have h2 : (⌈(bmax - (x + step)) / step⌉).toNat = n - 1 := by
        rw [h1, Int.ceil_sub_one]
        omega
      have hn1 : 1 ≤ n := by omega
      rw [ih (n - 1) (by omega) (x + step) h2]
      cases n with
      | zero => omega
      | succ m =>
        simp only [Nat.succ_sub_one]
        rw [List.range_succ_eq_map]
        simp only [List.map_cons, List.map_map, List.cons.injEq]
        refine ⟨by simp, ?_⟩
        apply List.map_congr_left
        intro k _
        simp only [Function.comp]
        push_cast
        ring
    · rw [dif_neg h]
      have hle : (bmax - x) / step ≤ 0 :=
        div_nonpos_iff.mpr (Or.inr ⟨by linarith, le_of_lt hstep⟩)
      have : ⌈(bmax - x) / step⌉ ≤ 0 := Int.ceil_le.mpr (by exact_mod_cast hle)
      have hn0 : n = 0 := by omega
      rw [hn0]
      rfl

/-- C3: the grid iteration enumerates the sub-rectangles in row-major
order, outer loop over x and inner loop over y, the cells starting at
the multiples of the step and their max edges clipped to the outer
box. -/
theorem C3_grid_iteration (bminx bminy bmaxx bmaxy step : ℚ)
    (hx : bminx < bmaxx) (hy : bminy < bmaxy) (hstep : 0 < step) :
    gridCells bminx bminy bmaxx bmaxy step hstep =
      (List.range ((⌈(bmaxx - bminx) / step⌉).toNat)).flatMap (fun i : ℕ =>
        (List.range ((⌈(bmaxy - bminy) / step⌉).toNat)).map (fun j : ℕ =>
          { minx := bminx + (i : ℚ) * step,
            miny := bminy + (j : ℚ) * step,
            maxx := min (bminx + (i : ℚ) * step + step) bmaxx,
            maxy := min (bminy + (j : ℚ) * step + step) bmaxy })) := by
  unfold gridCells
  rw [gridXs_eq_range bmaxx step hstep _ bminx rfl,
      gridXs_eq_range bmaxy step hstep _ bminy rfl]
  simp only [List.flatMap_map, List.map_map]
  rfl

/-- Witness for C3: over the box (0,0,1.2,1.0) with step 0.5 the grid
has exactly the 6 cells, 3 columns by 2 rows, and the last column is
clipped to width 0.2. -/
theorem C3_grid_iteration_witness :
    gridCells 0 0 (6/5) 1 (1/2) (by norm_num) =
      [{ minx := 0, miny := 0, maxx := 1/2, maxy := 1/2 },
       { minx := 0, miny := 1/2, maxx := 1/2, maxy := 1 },
       { minx := 1/2, miny := 0, maxx := 1, maxy := 1/2 },
       { minx := 1/2, miny := 1/2, maxx := 1, maxy := 1 },
       { minx := 1, miny := 0, maxx := 6/5, maxy := 1/2 },
       { minx := 1, miny := 1/2, maxx := 6/5, maxy := 1 }] ∧
    (gridCells 0 0 (6/5) 1 (1/2) (by norm_num)).length = 6 ∧
    ∀ c ∈ gridCells 0 0 (6/5) 1 (1/2) (by norm_num),
      c.minx = 1 → c.maxx - c.minx = 1/5 := by
  have h := C3_grid_iteration 0 0 (6/5) 1 (1/2) (by norm_num) (by norm_num) (by norm_num)
  have e1 : ⌈((6:ℚ)/5 - 0) / (1/2)⌉ = 3 := by
    rw [Int.ceil_eq_iff]
    norm_num
  have e2 : ⌈((1:ℚ) - 0) / (1/2)⌉ = 2 := by
    rw [Int.ceil_eq_iff]
    norm_num
  rw [e1, e2] at h
  have r3 : List.range ((3:ℤ).toNat) = [0, 1, 2] := rfl
  have r2 : List.range ((2:ℤ).toNat) = [0, 1] := rfl
  rw [r3] at h
  simp only [r2] at h
  simp only [List.flatMap_cons, List.flatMap_nil, List.map_cons, List.map_nil,
    List.append_nil, List.cons_append, List.nil_append] at h
  have hlist : gridCells 0 0 (6/5) 1 (1/2) (by norm_num) =
      [{ minx := 0, miny := 0, maxx := 1/2, maxy := 1/2 },
       { minx := 0, miny := 1/2, maxx := 1/2, maxy := 1 },
       { minx := 1/2, miny := 0, maxx := 1, maxy := 1/2 },
       { minx := 1/2, miny := 1/2, maxx := 1, maxy := 1 },
       { minx := 1, miny := 0, maxx := 6/5, maxy := 1/2 },
       { minx := 1, miny := 1/2, maxx := 6/5, maxy := 1 }] := by
    rw [h]
    simp only [List.cons.injEq, GridCell.mk.injEq]
    norm_num [min_def]
  refine ⟨hlist, by rw [hlist]; rfl, ?_⟩
  rw [hlist]
  intro c hc hminx
  fin_cases hc <;> norm_num at hminx ⊢

/-- C8: tile generation removes the tiles directory first exactly when
it exists, then runs the tile generator once with the configured
output directory, layer, zoom range, compression disabled and force
enabled; a missing binary or nonzero exit aborts with code 1, and a
zero exit does not. -/
theorem C8_generate_tiles (geojson_path tiles_dir : String) (dirExists : Bool)
    (tool : ToolOutcome) :
    (generate_tiles geojson_path tiles_dir dirExists tool).actions =
      (if dirExists then [TileAction.removeTree tiles_dir] else []) ++
        [TileAction.runCommand (tippecanoeCmd tiles_dir geojson_path)] ∧
    tiles_dir ∈ tippecanoeCmd tiles_dir geojson_path ∧
    "--layer=alkis" ∈ tippecanoeCmd tiles_dir geojson_path ∧
    "--minimum-zoom=10" ∈ tippecanoeCmd tiles_dir geojson_path ∧
    "--maximum-zoom=13" ∈ tippecanoeCmd tiles_dir geojson_path ∧
    "--no-tile-compression" ∈ tippecanoeCmd tiles_dir geojson_path ∧
    "--force" ∈ tippecanoeCmd tiles_dir geojson_path ∧
    ((generate_tiles geojson_path tiles_dir dirExists tool).exitStatus = some 1 ↔
      tool = ToolOutcome.missing ∨ ∃ n, tool = ToolOutcome.exitedWith (n + 1)) := by
  refine ⟨?_, ?_, ?_, ?_, ?_, ?_, ?_, ?_⟩
  · cases tool with
    | missing => rfl
    | exitedWith c => cases c <;> rfl
  · simp [tippecanoeCmd]
  · simp [tippecanoeCmd]
  · simp [tippecanoeCmd]
  · simp [tippecanoeCmd]
  · simp [tippecanoeCmd]
  · simp [tippecanoeCmd]
  · cases tool with
    | missing => simp [generate_tiles]
    | exitedWith c =>
      cases c with
      | zero => simp [generate_tiles]
      | succ n => simp [generate_tiles]

/-- Witness for C8 at a concrete invocation: existing tiles directory
and a missing tile binary. -/
theorem C8_generate_tiles_witness :
    (generate_tiles "alkis_bb.geojson" "tiles" true ToolOutcome.missing).actions =
      [TileAction.removeTree "tiles",
       TileAction.runCommand (tippecanoeCmd "tiles" "alkis_bb.geojson")] ∧
    (generate_tiles "alkis_bb.geojson" "tiles" true ToolOutcome.missing).exitStatus =
      some 1 := by
  have h := C8_generate_tiles "alkis_bb.geojson" "tiles" true ToolOutcome.missing
  refine ⟨?_, ?_⟩
  · rw [h.1]
    rfl
  · exact h.2.2.2.2.2.2.2.mpr (Or.inl rfl)
